import Mathlib

/-!
Verification development for `enhanced_rir_parser.py` (RIRDataParser).

The Python source is shallowly embedded: the SQLite tables become lists of
rows, each method becomes a pure Lean function over an explicit database
state, and the relevant pieces of Python/stdlib behaviour (`str.strip`,
`str.split`, `int(...)`, `ipaddress.IPv4Address`, `ipaddress.IPv6Address`,
`ipaddress.IPv6Network`, `datetime.strptime(date, "%Y%m%d")`) are modelled
explicitly on ASCII input.  Modelling restrictions (documented where they
occur): Unicode digits and IPv6 zone identifiers are not modelled, since
RIR delegation data is plain ASCII and never carries zone ids.
-/

/-- Python `str.isspace` characters stripped by `str.strip()` (ASCII part). -/
def pyIsSpace (c : Char) : Bool :=
  c = ' ' ∨ c = '\t' ∨ c = '\n' ∨ c = '\r' ∨ c = '\x0b' ∨ c = '\x0c'

/-- Python `str.strip()` with no argument: strip whitespace at both ends. -/
def pyStrip (s : String) : String :=
  (((s.data.dropWhile pyIsSpace).reverse.dropWhile pyIsSpace).reverse).asString

/-- Python `s.split(sep)` for a single-character separator: keeps empty parts. -/
def pySplitAux (sep : Char) : List Char → List Char → List String
  | [], cur => [cur.reverse.asString]
  | c :: rest, cur =>
    if c = sep then cur.reverse.asString :: pySplitAux sep rest []
    else pySplitAux sep rest (c :: cur)

/-- Python `s.split(sep)` for a single-character separator. -/
def pySplit (s : String) (sep : Char) : List String :=
  pySplitAux sep s.data []

/-- Python `s.startswith("#")`: the very first character is the marker. -/
def pyStartsWithHash (s : String) : Bool :=
  match s.data with
  | c :: _ => c = '#'
  | [] => false

/-- ASCII uppercase of one character, as Python `str.upper` acts on ASCII. -/
def pyUpperChar (c : Char) : Char :=
  if 'a' ≤ c ∧ c ≤ 'z' then Char.ofNat (c.toNat - 32) else c

/-- Python `str.upper()` on ASCII strings (RIR country codes are ASCII). -/
def pyUpper (s : String) : String :=
  (s.data.map pyUpperChar).asString

/-- Numeric value of an ASCII digit character. -/
def digitVal (c : Char) : Nat := c.toNat - 48

/-- Digit-sequence tail of Python `int(...)`: decimal digits with single
underscores permitted between digits (as CPython accepts). -/
def pyNatAux : Nat → List Char → Option Nat
  | acc, [] => some acc
  | _, ['_'] => none
  | acc, '_' :: c :: rest =>
    if c.isDigit then pyNatAux (10 * acc + digitVal c) rest else none
  | acc, c :: rest =>
    if c.isDigit then pyNatAux (10 * acc + digitVal c) rest else none

/-- Nonempty decimal digit sequence (with CPython underscore rule). -/
def pyNat : List Char → Option Nat
  | [] => none
  | c :: rest => if c.isDigit then pyNatAux (digitVal c) rest else none

/-- Python `int(s)` on ASCII strings: optional surrounding whitespace, an
optional single sign, then decimal digits; raises (here: `none`) otherwise. -/
def pyInt (s : String) : Option Int :=
  match (pyStrip s).data with
  | '-' :: rest => (pyNat rest).map (fun n => -(n : Int))
  | '+' :: rest => (pyNat rest).map (fun n => (n : Int))
  | cs => (pyNat cs).map (fun n => (n : Int))

/-- One dotted-quad octet, as `ipaddress._parse_octet`: 1-3 ASCII digits,
no leading zero in a multi-digit octet, value at most 255. -/
def parseOctet (s : String) : Option Nat :=
  match s.data with
  | [] => none
  | c :: rest =>
    if (c :: rest).length > 3 then none
    else if ¬ (c :: rest).all Char.isDigit then none
    else if rest ≠ [] ∧ c = '0' then none
    else
      let v := (c :: rest).foldl (fun a d => 10 * a + digitVal d) 0
      if v ≤ 255 then some v else none

/-- `int(ipaddress.IPv4Address(s))`: exactly four valid octets. -/
def parseIPv4 (s : String) : Option Nat :=
  match (pySplit s '.').mapM parseOctet with
  | some [a, b, c, d] => some (((a * 256 + b) * 256 + c) * 256 + d)
  | _ => none

/-- One IPv6 hextet, as `ipaddress._parse_hextet`: 1-4 hex digits. -/
def hexVal (c : Char) : Option Nat :=
  if '0' ≤ c ∧ c ≤ '9' then some (c.toNat - 48)
  else if 'a' ≤ c ∧ c ≤ 'f' then some (c.toNat - 87)
  else if 'A' ≤ c ∧ c ≤ 'F' then some (c.toNat - 55)
  else none

/-- Parse one hextet string (nonempty, at most 4 hex digits). -/
def parseHextet (s : String) : Option Nat :=
  if s.data.length = 0 ∨ s.data.length > 4 then none
  else s.data.foldl
    (fun acc c =>
      match acc, hexVal c with
      | some a, some v => some (16 * a + v)
      | _, _ => none)
    (some 0)

/-- Lowercase hexadecimal rendering, Python `"%x" % n`. -/
def hexStr (n : Nat) : String := (Nat.toDigits 16 n).asString

/-- Indices of empty parts strictly between the first and last part, the
candidates for the one permitted `::` gap. -/
def interiorEmptyIdxs (parts : List String) : List Nat :=
  (List.range parts.length).filter
    (fun i => decide (0 < i) && decide (i < parts.length - 1) &&
      decide (parts.getD i "x" = ""))

/-- Core of `ipaddress.IPv6Address._ip_int_from_string` after the optional
embedded-IPv4 suffix has been rewritten into two hextets: at most 9 parts,
at most one interior empty part (the `::` gap), a leading or trailing empty
part only as part of `::`, exactly 8 hextets when there is no gap. -/
def ipv6FromParts (parts : List String) : Option Nat :=
  if parts.length > 9 then none
  else
    match interiorEmptyIdxs parts with
    | [] =>
      if parts.length ≠ 8 then none
      else if parts.headD "x" = "" then none
      else if parts.getLastD "x" = "" then none
      else (parts.mapM parseHextet).map
        (fun hs => hs.foldl (fun a h => a * 65536 + h) 0)
    | [i] =>
      let n := parts.length
      let hi0 := i
      let lo0 := n - i - 1
      let hiAdj := if parts.headD "x" = "" then hi0 - 1 else hi0
      let loAdj := if parts.getLastD "x" = "" then lo0 - 1 else lo0
      if parts.headD "x" = "" ∧ hiAdj ≠ 0 then none
      else if parts.getLastD "x" = "" ∧ loAdj ≠ 0 then none
      else if hiAdj + loAdj ≥ 8 then none
      else
        let skipped := 8 - (hiAdj + loAdj)
        match (parts.take hiAdj).mapM parseHextet,
              (parts.drop (n - loAdj)).mapM parseHextet with
        | some hs, some ls =>
          let hiVal := hs.foldl (fun a h => a * 65536 + h) 0
          some (ls.foldl (fun a h => a * 65536 + h) (hiVal * 2 ^ (16 * skipped)))
        | _, _ => none
    | _ => none

/-- `int(ipaddress.IPv6Address(s))` on zone-free ASCII input: split on the
colon, require at least three parts, rewrite a dotted-quad final part into
two hextets, then assemble.  Zone identifiers (`%...`) are not modelled; a
`%` makes the parse fail here, and RIR data never carries zones. -/
def parseIPv6 (s : String) : Option Nat :=
  let parts := pySplit s ':'
  if parts.length < 3 then none
  else
    let lastP := parts.getLastD ""
    if lastP.data.any (fun c => c = '.') then
      match parseIPv4 lastP with
      | none => none
      | some v =>
        ipv6FromParts (parts.dropLast ++ [hexStr (v / 65536), hexStr (v % 65536)])
    else ipv6FromParts parts

/-- Python `str(IPv4Address(a))`: dotted quad. -/
def ipv4Render (a : Nat) : String :=
  toString (a / 2 ^ 24 % 256) ++ "." ++ toString (a / 2 ^ 16 % 256) ++ "." ++
    toString (a / 2 ^ 8 % 256) ++ "." ++ toString (a % 256)

/-- The eight 16-bit hextet values of a 128-bit address, most significant
first. -/
def hextetsOf (a : Nat) : List Nat :=
  [a / 2 ^ 112 % 65536, a / 2 ^ 96 % 65536, a / 2 ^ 80 % 65536,
   a / 2 ^ 64 % 65536, a / 2 ^ 48 % 65536, a / 2 ^ 32 % 65536,
   a / 2 ^ 16 % 65536, a % 65536]

/-- Leftmost longest run of zero hextets, as `_compress_hextets` finds it:
`(start, length)`, `(0, 0)` when there are no zeros. -/
def bestRunAux : List Nat → Nat → Option Nat → Nat → Nat × Nat → Nat × Nat
  | [], _, _, _, best => best
  | h :: t, idx, curStart, curLen, best =>
    if h = 0 then
      let cs := curStart.getD idx
      let cl := curLen + 1
      let best2 := if cl > best.2 then (cs, cl) else best
      bestRunAux t (idx + 1) (some cs) cl best2
    else bestRunAux t (idx + 1) none 0 best

/-- Best zero run of a hextet list. -/
def bestZeroRun (hs : List Nat) : Nat × Nat := bestRunAux hs 0 none 0 (0, 0)

/-- Join with a separator, Python `":".join(...)`. -/
def joinSep (sep : String) : List String → String
  | [] => ""
  | [x] => x
  | x :: y :: xs => x ++ sep ++ joinSep sep (y :: xs)

/-- Python `str(IPv6Address(a))`: compressed lowercase form, replacing the
leftmost longest run of two or more zero hextets by `::`. -/
def ipv6Render (a : Nat) : String :=
  let hs := hextetsOf a
  let best := bestZeroRun hs
  if best.2 > 1 then
    let lo := (hs.drop (best.1 + best.2)).map hexStr
    let lo2 := if best.1 + best.2 = 8 then lo ++ [""] else lo
    let mid := (hs.take best.1).map hexStr ++ [""] ++ lo2
    let full := if best.1 = 0 then "" :: mid else mid
    joinSep ":" full
  else joinSep ":" (hs.map hexStr)

/-- Gregorian leap year, as `datetime` uses. -/
def isLeap (y : Nat) : Bool :=
  decide (y % 4 = 0 ∧ (y % 100 ≠ 0 ∨ y % 400 = 0))

/-- Days in a month of a given year, as `datetime` validates. -/
def daysInMonth (y m : Nat) : Nat :=
  if m = 2 then (if isLeap y then 29 else 28)
  else if m = 4 ∨ m = 6 ∨ m = 9 ∨ m = 11 then 30 else 31

/-- `datetime.strptime(s, "%Y%m%d")` succeeding on an 8-character string:
the regex built by `_strptime` forces four year digits, and consuming all
eight characters forces a two-digit month `01`-`12` and two-digit day
`01`-`31`; the `datetime` constructor then requires a positive year and a
calendar-valid day for the month. -/
def validDate8 (s : String) : Bool :=
  match s.data with
  | [y1, y2, y3, y4, m1, m2, d1, d2] =>
    (y1.isDigit && y2.isDigit && y3.isDigit && y4.isDigit &&
     m1.isDigit && m2.isDigit && d1.isDigit && d2.isDigit) &&
    (let y := ((digitVal y1 * 10 + digitVal y2) * 10 + digitVal y3) * 10 + digitVal y4
     let m := digitVal m1 * 10 + digitVal m2
     let d := digitVal d1 * 10 + digitVal d2
     decide (1 ≤ y) && decide (1 ≤ m) && decide (m ≤ 12) &&
       decide (1 ≤ d) && decide (d ≤ daysInMonth y m))
  | _ => false

/-- Date normalization inside `parse_rir_line`: a nonempty 8-character date
that fails `strptime` is cleared to the empty string; every other date
string is kept unchanged. -/
def normalizeDate (date : String) : String :=
  if date ≠ "" ∧ date.length = 8 then
    (if validDate8 date then date else "") else date

/-- The dictionary `parse_rir_line` returns for an accepted line. -/
structure DelegationRecord where
  registry : String
  country_code : String
  type : String
  start : String
  value : String
  date : String
  status : String
deriving DecidableEq, Repr

/-- Field validation of `parse_rir_line` after the line-level checks: uses
`fields[:7]`, rejects a wildcard or non-2-character country code and any
address-family tag other than `ipv4`/`ipv6`, upper-cases the country code
and normalizes the date. -/
def parse_fields (fields : List String) : Option DelegationRecord :=
  match fields with
  | registry :: cc :: type_field :: start :: value :: date :: status :: _ =>
    if cc = "*" ∨ cc.length ≠ 2 then none
    else if type_field ≠ "ipv4" ∧ type_field ≠ "ipv6" then none
    else some ⟨registry, pyUpper cc, type_field, start, value,
      normalizeDate date, status⟩
  | _ => none

/-- `RIRDataParser.parse_rir_line`: reject a line starting with `#` or a
blank line, then split the stripped line on `|` and validate its fields
(fewer than seven fields rejects the line). -/
def parse_rir_line (line : String) : Option DelegationRecord :=
  if pyStartsWithHash line = true ∨ pyStrip line = "" then none
  else parse_fields (pySplit (pyStrip line) '|')

/-- A parsed entry after `process_rir_data` has added the owning registry
name under the `rir` key. -/
structure RIREntry where
  registry : String
  country_code : String
  type : String
  start : String
  value : String
  date : String
  status : String
  rir : String
deriving DecidableEq, Repr

/-- A row of the `ipv4_ranges` table.  `start_ip` and `end_ip` are the
integers the source computes; `end_ip = start_ip + count - 1` is stored
with no 32-bit bound (Python integers are unbounded). -/
structure IPv4Row where
  start_ip : Int
  end_ip : Int
  country_code : String
  rir : String
  date_allocated : String
  status : String
deriving DecidableEq, Repr

/-- A row of the `ipv6_ranges` table: the raw start string and the parsed
size field, stored verbatim. -/
structure IPv6Row where
  network : String
  prefix_length : Int
  country_code : String
  rir : String
  date_allocated : String
  status : String
deriving DecidableEq, Repr

/-- The database state: both range tables, rows in insertion order. -/
structure DB where
  ipv4 : List IPv4Row
  ipv6 : List IPv6Row
deriving DecidableEq, Repr

/-- `RIRDataParser.process_rir_data`: split the raw text on newlines, parse
each line, and tag accepted entries with the registry name. -/
def process_rir_data (data : String) (rir_name : String) : List RIREntry :=
  (pySplit data '\n').filterMap (fun line =>
    (parse_rir_line line).map (fun r =>
      ⟨r.registry, r.country_code, r.type, r.start, r.value, r.date,
        r.status, rir_name⟩))

/-- IPv4 branch of `insert_entries_to_db`: `int(entry["value"])` then
`ip_to_int(entry["start"])`; either failure skips the entry, any success
stores `(start_ip, start_ip + num_ips - 1, ...)` unchecked. -/
def prepIPv4 (e : RIREntry) : Option IPv4Row :=
  match pyInt e.value with
  | none => none
  | some n =>
    match parseIPv4 e.start with
    | none => none
    | some s => some ⟨(s : Int), (s : Int) + n - 1, e.country_code, e.rir,
        e.date, e.status⟩

/-- IPv6 branch of `insert_entries_to_db`: only `int(entry["value"])` is
validated; the start string is stored verbatim as the network. -/
def prepIPv6 (e : RIREntry) : Option IPv6Row :=
  match pyInt e.value with
  | none => none
  | some n => some ⟨e.start, n, e.country_code, e.rir, e.date, e.status⟩

/-- `RIRDataParser.insert_entries_to_db`: prepare the IPv4 and IPv6 batches
in entry order and append them to the respective tables. -/
def insert_entries_to_db (db : DB) (entries : List RIREntry) : DB :=
  let ipv4_entries := entries.filterMap
    (fun e => if e.type = "ipv4" then prepIPv4 e else none)
  let ipv6_entries := entries.filterMap
    (fun e => if e.type = "ipv6" then prepIPv6 e else none)
  ⟨db.ipv4 ++ ipv4_entries, db.ipv6 ++ ipv6_entries⟩

/-- `RIRDataParser.build_table` on a given prior database state and a list
of `(registry, downloaded text or None)` pairs: both range tables are
cleared (`DELETE FROM`), then each successfully downloaded registry is
processed and its nonempty entry batch inserted. -/
def build_table (db : DB) (downloads : List (String × Option String)) : DB :=
  downloads.foldl
    (fun d rd =>
      match rd.2 with
      | some data =>
        let entries := process_rir_data data rd.1
        if entries.isEmpty then d else insert_entries_to_db d entries
      | none => d)
    ⟨[], []⟩

/-- The result dictionary of a lookup; the placeholder rows of
`bulk_lookup` have every attribute `none`.  The v4 result dictionary has no
`network` key, modelled as `network = none`. -/
structure LookupResult where
  ip_address : String
  country_code : Option String
  rir : Option String
  date_allocated : Option String
  status : Option String
  ip_version : Option Nat
  network : Option String
deriving DecidableEq, Repr

/-- The SQL `WHERE start_ip <= a AND end_ip >= a` condition. -/
def containsAddr (a : Nat) (r : IPv4Row) : Bool :=
  decide (r.start_ip ≤ (a : Int) ∧ (a : Int) ≤ r.end_ip)

/-- Width expression of the SQL `ORDER BY end_ip - start_ip`. -/
def rowWidth (r : IPv4Row) : Int := r.end_ip - r.start_ip

/-- `ORDER BY end_ip - start_ip LIMIT 1`: a row of minimal width, the
earlier row preferred on ties. -/
def minByWidth : List IPv4Row → Option IPv4Row
  | [] => none
  | r :: rs =>
    match minByWidth rs with
    | none => some r
    | some m => if rowWidth r ≤ rowWidth m then some r else some m

/-- The dictionary `lookup_ipv4` builds from a matching row. -/
def mkV4Result (a : Nat) (r : IPv4Row) : LookupResult :=
  ⟨ipv4Render a, some r.country_code, some r.rir, some r.date_allocated,
    some r.status, some 4, none⟩

/-- `RIRDataParser.lookup_ipv4` on the integer value of the address. -/
def lookup_ipv4 (db : DB) (a : Nat) : Option LookupResult :=
  match minByWidth (db.ipv4.filter (containsAddr a)) with
  | some r => some (mkV4Result a r)
  | none => none

/-- `ipaddress.IPv6Network(f"{network}/{prefix_length}", strict=False)` for
one stored row: at most one `/` in the combined string, a prefix string of
decimal digits valued 0-128, a parseable network address; `strict=False`
clears the host bits.  Returns the network value and prefix length. -/
def rowNetwork (r : IPv6Row) : Option (Nat × Nat) :=
  match pySplit (r.network ++ "/" ++ toString r.prefix_length) '/' with
  | [addrStr, plenStr] =>
    if plenStr.data = [] ∨ ¬ plenStr.data.all Char.isDigit then none
    else
      let plen := plenStr.data.foldl (fun a c => 10 * a + digitVal c) 0
      if plen > 128 then none
      else
        match parseIPv6 addrStr with
        | none => none
        | some v =>
          some (v / 2 ^ (128 - plen) * 2 ^ (128 - plen), plen)
  | _ => none

/-- Python `address in network` membership for an IPv6 network. -/
def inNetwork (addr : Nat) (np : Nat × Nat) : Bool :=
  decide (addr / 2 ^ (128 - np.2) = np.1 / 2 ^ (128 - np.2))

/-- One iteration of the `lookup_ipv6` row loop: `none` when the row fails
to form a network (the `except ValueError: continue`) or does not contain
the address. -/
def rowMatch (addr : Nat) (r : IPv6Row) : Option (Nat × Nat) :=
  match rowNetwork r with
  | some np => if inNetwork addr np then some np else none
  | none => none

/-- The dictionary `lookup_ipv6` builds from a matching row: includes
`str(network)` = rendered network address `/` prefix length. -/
def mkV6Result (addr : Nat) (r : IPv6Row) (np : Nat × Nat) : LookupResult :=
  ⟨ipv6Render addr, some r.country_code, some r.rir, some r.date_allocated,
    some r.status, some 6, some (ipv6Render np.1 ++ "/" ++ toString np.2)⟩

/-- `RIRDataParser.lookup_ipv6` on the integer value of the address: scan
all stored rows in table order and return the first that contains the
address. -/
def lookup_ipv6 (db : DB) (addr : Nat) : Option LookupResult :=
  db.ipv6.findSome? (fun r =>
    match rowMatch addr r with
    | some np => some (mkV6Result addr r np)
    | none => none)

/-- `RIRDataParser.lookup_ip`: `ipaddress.ip_address` tries IPv4 first,
then IPv6, and an unparseable address yields `None`; the canonical string
form is passed on, which re-parses to the same integer. -/
def lookup_ip (db : DB) (s : String) : Option LookupResult :=
  match parseIPv4 s with
  | some a => lookup_ipv4 db a
  | none =>
    match parseIPv6 s with
    | some a => lookup_ipv6 db a
    | none => none

/-- The placeholder dictionary `bulk_lookup` appends for an unresolved
address. -/
def placeholderResult (ip : String) : LookupResult :=
  ⟨ip, none, none, none, none, none, none⟩

/-- `RIRDataParser.bulk_lookup`: one result per input address, in order;
a found dictionary is nonempty hence truthy, so the placeholder is used
exactly when `lookup_ip` returns `None`. -/
def bulk_lookup (db : DB) (ips : List String) : List LookupResult :=
  ips.foldl
    (fun results ip =>
      results ++ [match lookup_ip db ip with
        | some r => r
        | none => placeholderResult ip])
    []

/-- `parse_fields` inspects only the first seven fields: truncating the
field list to seven changes nothing. -/
theorem parse_fields_take7 (fs : List String) :
    parse_fields (fs.take 7) = parse_fields fs := by
  rcases fs with _ | ⟨a, _ | ⟨b, _ | ⟨c, _ | ⟨d, _ | ⟨e, _ | ⟨f, _ | ⟨g, rest⟩⟩⟩⟩⟩⟩⟩ <;> rfl

/-- A fold that appends one element per input equals the accumulator
followed by a map. -/
theorem foldl_append_eq_map {α β : Type} (f : α → β) (l : List α) :
    ∀ acc : List β, l.foldl (fun rs x => rs ++ [f x]) acc = acc ++ l.map f := by
  induction l with
  | nil => intro acc; simp
  | cons x xs ih => intro acc; simp [List.foldl_cons, ih]

/-- `minByWidth` of an empty list only. -/
theorem minByWidth_eq_none {l : List IPv4Row} (h : minByWidth l = none) :
    l = [] := by
  cases l with
  | nil => rfl
  | cons r rs =>
    exfalso
    unfold minByWidth at h
    cases hm : minByWidth rs <;> rw [hm] at h <;> simp at h
    split at h <;> simp at h

/-- `minByWidth` of a nonempty list returns a member of minimal width. -/
theorem minByWidth_spec (l : List IPv4Row) (hne : l ≠ []) :
    ∃ m, minByWidth l = some m ∧ m ∈ l ∧ ∀ x ∈ l, rowWidth m ≤ rowWidth x := by
  induction l with
  | nil => exact absurd rfl hne
  | cons r rs ih =>
    cases hm : minByWidth rs with
    | none =>
      have hrs : rs = [] := minByWidth_eq_none hm
      subst hrs
      exact ⟨r, rfl, by simp, by simp⟩
    | some m =>
      have hrsne : rs ≠ [] := by
        intro h0
        subst h0
        simp [minByWidth] at hm
      obtain ⟨m', hm', hmem, hmin⟩ := ih hrsne
      rw [hm] at hm'
      cases hm'
      by_cases hle : rowWidth r ≤ rowWidth m
      · refine ⟨r, ?_, by simp, ?_⟩
        · unfold minByWidth
          rw [hm]
          simp [hle]
        · intro x hx
          rcases List.mem_cons.mp hx with h | h
          · subst h; exact le_refl _
          · exact le_trans hle (hmin x h)
      · refine ⟨m, ?_, by simp [hmem], ?_⟩
        · unfold minByWidth
          rw [hm]
          simp [hle]
        · intro x hx
          rcases List.mem_cons.mp hx with h | h
          · subst h; exact le_of_lt (lt_of_not_le hle)
          · exact hmin x h

/-- C3: for every stored IPv4 range containing an address, `lookup_ipv4`
does not return "not found", and the row it reports is a stored containing
row of minimal `end_ip - start_ip` among all stored containing rows. -/
theorem c3_narrowest_match (db : DB) (r : IPv4Row) (a : Nat)
    (hmem : r ∈ db.ipv4) (h1 : r.start_ip ≤ (a : Int)) (h2 : (a : Int) ≤ r.end_ip) :
    ∃ m, lookup_ipv4 db a = some (mkV4Result a m) ∧ m ∈ db.ipv4 ∧
      m.start_ip ≤ (a : Int) ∧ (a : Int) ≤ m.end_ip ∧
      ∀ q ∈ db.ipv4, q.start_ip ≤ (a : Int) → (a : Int) ≤ q.end_ip →
        m.end_ip - m.start_ip ≤ q.end_ip - q.start_ip := by
  have hf : r ∈ db.ipv4.filter (containsAddr a) :=
    List.mem_filter.mpr ⟨hmem, by simp [containsAddr, h1, h2]⟩
  have hne : db.ipv4.filter (containsAddr a) ≠ [] := by
    intro h0
    rw [h0] at hf
    exact absurd hf (List.not_mem_nil r)
  obtain ⟨m, hsome, hmemf, hmin⟩ := minByWidth_spec _ hne
  have hmc := List.mem_filter.mp hmemf
  have hcont : m.start_ip ≤ (a : Int) ∧ (a : Int) ≤ m.end_ip := by
    have := hmc.2
    simpa [containsAddr] using this
  refine ⟨m, ?_, hmc.1, hcont.1, hcont.2, ?_⟩
  · unfold lookup_ipv4
    rw [hsome]
  · intro q hq hq1 hq2
    have hqf : q ∈ db.ipv4.filter (containsAddr a) :=
      List.mem_filter.mpr ⟨hq, by simp [containsAddr, hq1, hq2]⟩
    exact hmin q hqf

/-- Witness for C3: two overlapping stored ranges `[0, 100]` and `[10, 20]`
both contain 15; lookup returns the narrower `[10, 20]` row. -/
theorem c3_narrowest_match_witness :
    ∃ m, lookup_ipv4 ⟨[⟨0, 100, "US", "ARIN", "", "allocated"⟩,
        ⟨10, 20, "FR", "RIPE", "", "allocated"⟩], []⟩ 15 = some (mkV4Result 15 m) ∧
      m ∈ (⟨[⟨0, 100, "US", "ARIN", "", "allocated"⟩,
        ⟨10, 20, "FR", "RIPE", "", "allocated"⟩], []⟩ : DB).ipv4 ∧
      m.start_ip ≤ ((15 : Nat) : Int) ∧ ((15 : Nat) : Int) ≤ m.end_ip ∧
      ∀ q ∈ (⟨[⟨0, 100, "US", "ARIN", "", "allocated"⟩,
        ⟨10, 20, "FR", "RIPE", "", "allocated"⟩], []⟩ : DB).ipv4,
        q.start_ip ≤ ((15 : Nat) : Int) → ((15 : Nat) : Int) ≤ q.end_ip →
        m.end_ip - m.start_ip ≤ q.end_ip - q.start_ip :=
  c3_narrowest_match ⟨[⟨0, 100, "US", "ARIN", "", "allocated"⟩,
      ⟨10, 20, "FR", "RIPE", "", "allocated"⟩], []⟩
    ⟨0, 100, "US", "ARIN", "", "allocated"⟩ 15 (by decide) (by decide) (by decide)

/-- C8: building twice from identical downloaded input yields identical
IPv4 and IPv6 range counts and identical lookup results for every query
address, regardless of the database state the build starts from (the build
clears both tables first). -/
theorem c8_build_idempotent (db : DB) (downloads : List (String × Option String)) :
    (build_table (build_table db downloads) downloads).ipv4.length =
      (build_table db downloads).ipv4.length ∧
    (build_table (build_table db downloads) downloads).ipv6.length =
      (build_table db downloads).ipv6.length ∧
    ∀ a : String,
      lookup_ip (build_table (build_table db downloads) downloads) a =
        lookup_ip (build_table db downloads) a :=
  ⟨rfl, rfl, fun _ => rfl⟩

/-- C9: `bulk_lookup` returns one result per input address, in input order;
position `i` of the output is the lookup result for position `i` of the
input, with the placeholder (queried address, all attributes absent) exactly
when the address does not resolve. -/
theorem c9_bulk_lookup_shape (db : DB) (ips : List String) :
    (bulk_lookup db ips).length = ips.length ∧
    ∀ i : Nat, (bulk_lookup db ips)[i]? =
      (ips[i]?).map (fun ip =>
        match lookup_ip db ip with
        | some r => r
        | none => placeholderResult ip) := by
  have h : bulk_lookup db ips = ips.map (fun ip =>
      match lookup_ip db ip with
      | some r => r
      | none => placeholderResult ip) := by
    unfold bulk_lookup
    rw [foldl_append_eq_map]
    simp
  constructor
  · rw [h, List.length_map]
  · intro i
    rw [h, List.getElem?_map]

/-- C10: `parse_rir_line` uses only the first seven pipe-delimited fields;
truncating the split line to seven fields gives the same result, so extra
fields of the registries' extended format have no effect. -/
theorem c10_first_seven_fields (line : String) :
    parse_rir_line line =
      if pyStartsWithHash line = true ∨ pyStrip line = "" then none
      else parse_fields ((pySplit (pyStrip line) '|').take 7) := by
  unfold parse_rir_line
  by_cases h : pyStartsWithHash line = true ∨ pyStrip line = ""
  · rw [if_pos h, if_pos h]
  · rw [if_neg h, if_neg h, parse_fields_take7]

/-- A `findSome?` scan skips a prefix on which the function yields `none`. -/
theorem findSome?_skip {α β : Type} (f : α → Option β) (pre : List α)
    (hpre : ∀ q ∈ pre, f q = none) :
    ∀ l : List α, (pre ++ l).findSome? f = l.findSome? f := by
  induction pre with
  | nil => intro l; rfl
  | cons x xs ih =>
    intro l
    have hx : f x = none := hpre x (by simp)
    rw [List.cons_append, List.findSome?_cons, hx]
    exact ih (fun q hq => hpre q (by simp [hq])) l

/-- C1 (amended): `lookup_ipv6` returns the attributes of the first stored
prefix, in table (insertion) order, whose network contains the query
address; earlier rows that fail to form a network or do not contain the
address are skipped.  The longest matching prefix is returned only when it
precedes every other matching prefix in storage order. -/
theorem c1_first_match (db : DB) (addr : Nat) (pre post : List IPv6Row)
    (r : IPv6Row) (np : Nat × Nat)
    (hdb : db.ipv6 = pre ++ r :: post)
    (hpre : ∀ q ∈ pre, rowMatch addr q = none)
    (hr : rowMatch addr r = some np) :
    lookup_ipv6 db addr = some (mkV6Result addr r np) := by
  unfold lookup_ipv6
  rw [hdb]
  have hpre' : ∀ q ∈ pre,
      (match rowMatch addr q with
        | some np => some (mkV6Result addr q np)
        | none => (none : Option LookupResult)) = none := by
    intro q hq
    rw [hpre q hq]
  rw [findSome?_skip _ pre hpre', List.findSome?_cons, hr]

/-- Witness for C1 (amended): the `/48` mapped to FR stored before the
`/32` mapped to DE; the query for `2001:db8::1` returns the FR row. -/
theorem c1_first_match_witness :
    lookup_ipv6
      (build_table ⟨[], []⟩ [("RIPE", some
        "ripencc|FR|ipv6|2001:db8::|48||allocated\nripencc|DE|ipv6|2001:db8::|32||allocated")])
      (0x20010db8 * 2 ^ 96 + 1) =
      some (mkV6Result (0x20010db8 * 2 ^ 96 + 1)
        ⟨"2001:db8::", 48, "FR", "RIPE", "", "allocated"⟩
        (0x20010db8 * 2 ^ 96, 48)) :=
  c1_first_match _ _ [] [⟨"2001:db8::", 32, "DE", "RIPE", "", "allocated"⟩]
    ⟨"2001:db8::", 48, "FR", "RIPE", "", "allocated"⟩ (0x20010db8 * 2 ^ 96, 48)
    (by decide) (by simp) (by decide)

/-- Counterexample to C1 as stated: both `2001:db8::/32` (DE) and
`2001:db8::/48` (FR) are stored, the `/32` first; the query for
`2001:db8::1`, an address inside the `/48`, returns the `/32` row's
country DE, not the `/48` row's FR. -/
theorem c1_counterexample :
    Option.map LookupResult.country_code
      (lookup_ip
        (build_table ⟨[], []⟩ [("RIPE", some
          "ripencc|DE|ipv6|2001:db8::|32||allocated\nripencc|FR|ipv6|2001:db8::|48||allocated")])
        "2001:db8::1") = some (some "DE") ∧
    ("DE" : String) ≠ "FR" := by
  exact ⟨by decide, by decide⟩

/-- C2 (amended): during canonicalization an IPv4 record is excluded
exactly when its count field does not parse as a Python integer or its
start does not parse as a dotted quad; a parsed record is stored with
`end_ip = start_ip + count - 1` unchecked — no positivity check on the
count and no 32-bit overflow check. -/
theorem c2_ipv4_canonicalization (db : DB) (e : RIREntry) (h : e.type = "ipv4") :
    (insert_entries_to_db db [e]).ipv4 =
      db.ipv4 ++ (match pyInt e.value, parseIPv4 e.start with
        | some n, some s => [⟨(s : Int), (s : Int) + n - 1, e.country_code,
            e.rir, e.date, e.status⟩]
        | _, _ => []) ∧
    (insert_entries_to_db db [e]).ipv6 = db.ipv6 := by
  have h6 : ¬ e.type = "ipv6" := by rw [h]; decide
  unfold insert_entries_to_db
  simp only [List.filterMap_cons, List.filterMap_nil, if_pos h, if_neg h6]
  unfold prepIPv4
  constructor
  · cases pyInt e.value with
    | none => simp
    | some n => cases parseIPv4 e.start <;> simp
  · simp

/-- Witness for C2 (amended): the overflow record
`start=255.255.255.0, count=512` parses on both fields and is therefore
stored, with `end_ip = 4294967551` beyond the 32-bit address space. -/
theorem c2_ipv4_canonicalization_witness :
    (insert_entries_to_db ⟨[], []⟩
        [⟨"arin", "US", "ipv4", "255.255.255.0", "512", "20200101", "allocated", "ARIN"⟩]).ipv4 =
      [⟨4294967040, 4294967551, "US", "ARIN", "20200101", "allocated"⟩] ∧
    (insert_entries_to_db ⟨[], []⟩
        [⟨"arin", "US", "ipv4", "255.255.255.0", "512", "20200101", "allocated", "ARIN"⟩]).ipv6 = [] :=
  c2_ipv4_canonicalization ⟨[], []⟩
    ⟨"arin", "US", "ipv4", "255.255.255.0", "512", "20200101", "allocated", "ARIN"⟩ rfl

/-- Counterexample to C2 as stated: the record with `start=255.255.255.0`
and `count=512` does appear in the built index, as a row whose `end_ip`
4294967551 exceeds the 32-bit address space (max 4294967295). -/
theorem c2_counterexample :
    (build_table ⟨[], []⟩
        [("ARIN", some "arin|US|ipv4|255.255.255.0|512|20200101|allocated")]).ipv4 =
      [⟨4294967040, 4294967551, "US", "ARIN", "20200101", "allocated"⟩] ∧
    ¬ ((4294967551 : Int) ≤ 4294967295) := by
  exact ⟨by decide, by decide⟩

/-- C7 (amended): the only validation before an IPv6 record is stored is
that its size field parses as a Python integer; the network string is
stored verbatim (host bits are not cleared) and the prefix length is not
checked against 0-128 — range and parse validation happen only at lookup
time, where invalid rows are silently skipped. -/
theorem c7_ipv6_storage (db : DB) (e : RIREntry) (h : e.type = "ipv6") :
    (insert_entries_to_db db [e]).ipv6 =
      db.ipv6 ++ (match pyInt e.value with
        | some n => [⟨e.start, n, e.country_code, e.rir, e.date, e.status⟩]
        | none => []) ∧
    (insert_entries_to_db db [e]).ipv4 = db.ipv4 := by
  have h4 : ¬ e.type = "ipv4" := by rw [h]; decide
  unfold insert_entries_to_db
  simp only [List.filterMap_cons, List.filterMap_nil, if_pos h, if_neg h4]
  unfold prepIPv6
  constructor
  · cases pyInt e.value <;> simp
  · simp

/-- Witness for C7 (amended): a record with prefix length 200 and a
network string with host bits set is stored verbatim. -/
theorem c7_ipv6_storage_witness :
    (insert_entries_to_db ⟨[], []⟩
        [⟨"apnic", "JP", "ipv6", "2001:db8::1", "200", "20200101", "allocated", "APNIC"⟩]).ipv6 =
      [⟨"2001:db8::1", 200, "JP", "APNIC", "20200101", "allocated"⟩] ∧
    (insert_entries_to_db ⟨[], []⟩
        [⟨"apnic", "JP", "ipv6", "2001:db8::1", "200", "20200101", "allocated", "APNIC"⟩]).ipv4 = [] :=
  c7_ipv6_storage ⟨[], []⟩
    ⟨"apnic", "JP", "ipv6", "2001:db8::1", "200", "20200101", "allocated", "APNIC"⟩ rfl

/-- Counterexample to C7 as stated: a record with prefix length 200 (out of
the range 0-128) is stored rather than excluded, and its network string
keeps its host bits. -/
theorem c7_counterexample :
    (build_table ⟨[], []⟩
        [("APNIC", some "apnic|JP|ipv6|2001:db8::1|200|20200101|allocated")]).ipv6 =
      [⟨"2001:db8::1", 200, "JP", "APNIC", "20200101", "allocated"⟩] ∧
    ¬ ((200 : Int) ≤ 128) := by
  exact ⟨by decide, by decide⟩

/-- Field-level rejection characterization of `parse_fields`. -/
theorem parse_fields_eq_none (fs : List String) :
    parse_fields fs = none ↔
      (fs.length < 7 ∨ fs.getD 1 "" = "*" ∨ (fs.getD 1 "").length ≠ 2 ∨
       (fs.getD 2 "" ≠ "ipv4" ∧ fs.getD 2 "" ≠ "ipv6")) := by
  rcases fs with _ | ⟨a, _ | ⟨b, _ | ⟨c, _ | ⟨d, _ | ⟨e, _ | ⟨f, _ | ⟨g, rest⟩⟩⟩⟩⟩⟩⟩
  all_goals try exact iff_of_true rfl (Or.inl (by
    simp only [List.length_nil, List.length_cons]
    omega))
  have heq : parse_fields (a :: b :: c :: d :: e :: f :: g :: rest) =
      if b = "*" ∨ b.length ≠ 2 then none
      else if c ≠ "ipv4" ∧ c ≠ "ipv6" then none
      else some ⟨a, pyUpper b, c, d, e, normalizeDate f, g⟩ := rfl
  rw [heq]
  have hlen : ¬ ((a :: b :: c :: d :: e :: f :: g :: rest).length < 7) := by
    simp only [List.length_cons]
    omega
  by_cases hb : b = "*" ∨ b.length ≠ 2
  · rw [if_pos hb]
    exact iff_of_true rfl (Or.inr (hb.elim (fun h => Or.inl h)
      (fun h => Or.inr (Or.inl h))))
  · rw [if_neg hb]
    by_cases hc : c ≠ "ipv4" ∧ c ≠ "ipv6"
    · rw [if_pos hc]
      exact iff_of_true rfl (Or.inr (Or.inr (Or.inr hc)))
    · rw [if_neg hc]
      constructor
      · intro h
        simp at h
      · intro h
        rcases h with h | h | h | h
        · exact absurd h hlen
        · exact absurd h (not_or.mp hb).1
        · exact absurd h (not_or.mp hb).2
        · exact absurd h hc

/-- C5 (amended): `parse_rir_line` returns `None` exactly when the line's
very first character is the comment marker, the line is blank, the stripped
line has fewer than 7 pipe-delimited fields, the country code field is the
wildcard marker or not exactly 2 characters, or the address-family tag is
neither `ipv4` nor `ipv6`; every other line yields a record.  The comment
test is literal `startswith`: a line whose comment marker follows leading
whitespace is not rejected as a comment. -/
theorem c5_rejection_conditions (line : String) :
    parse_rir_line line = none ↔
      (pyStartsWithHash line = true ∨ pyStrip line = "" ∨
       (pySplit (pyStrip line) '|').length < 7 ∨
       (pySplit (pyStrip line) '|').getD 1 "" = "*" ∨
       ((pySplit (pyStrip line) '|').getD 1 "").length ≠ 2 ∨
       ((pySplit (pyStrip line) '|').getD 2 "" ≠ "ipv4" ∧
        (pySplit (pyStrip line) '|').getD 2 "" ≠ "ipv6")) := by
  unfold parse_rir_line
  by_cases h1 : pyStartsWithHash line = true ∨ pyStrip line = ""
  · rw [if_pos h1]
    exact iff_of_true rfl (h1.elim (fun h => Or.inl h) (fun h => Or.inr (Or.inl h)))
  · rw [if_neg h1]
    rw [parse_fields_eq_none]
    constructor
    · intro h
      exact Or.inr (Or.inr h)
    · intro h
      rcases h with h | h | h
      · exact absurd (Or.inl h) h1
      · exact absurd (Or.inr h) h1
      · exact h

/-- Counterexample to C5 as stated: the line below has its comment marker
after leading whitespace, so its first non-whitespace character is the
comment marker, yet `parse_rir_line` accepts it (the marker is absorbed
into the registry field). -/
theorem c5_counterexample :
    pyStartsWithHash (pyStrip "  #x|US|ipv4|1.2.3.0|256|20200101|allocated") = true ∧
    parse_rir_line "  #x|US|ipv4|1.2.3.0|256|20200101|allocated" =
      some ⟨"#x", "US", "ipv4", "1.2.3.0", "256", "20200101", "allocated"⟩ := by
  exact ⟨by decide, by decide⟩

/-- Every date `normalizeDate` produces is the raw date unchanged or the
empty string, and is calendar-valid whenever it has 8 characters. -/
theorem normalizeDate_spec (s : String) :
    (normalizeDate s = s ∨ normalizeDate s = "") ∧
    ((normalizeDate s).length = 8 → validDate8 (normalizeDate s) = true) := by
  unfold normalizeDate
  by_cases h : s ≠ "" ∧ s.length = 8
  · rw [if_pos h]
    by_cases hv : validDate8 s = true
    · rw [if_pos hv]
      exact ⟨Or.inl rfl, fun _ => hv⟩
    · rw [if_neg hv]
      refine ⟨Or.inr rfl, fun h8 => ?_⟩
      exact absurd h8 (by decide)
  · rw [if_neg h]
    refine ⟨Or.inl rfl, fun h8 => ?_⟩
    exfalso
    apply h
    constructor
    · intro h0
      rw [h0] at h8
      exact absurd h8 (by decide)
    · exact h8

/-- The date of every record `parse_rir_line` accepts is the normalized
sixth field of the stripped, split line. -/
theorem parse_date_eq (line : String) (r : DelegationRecord)
    (h : parse_rir_line line = some r) :
    r.date = normalizeDate ((pySplit (pyStrip line) '|').getD 5 "") := by
  unfold parse_rir_line at h
  by_cases h1 : pyStartsWithHash line = true ∨ pyStrip line = ""
  · rw [if_pos h1] at h
    exact Option.noConfusion h
  · rw [if_neg h1] at h
    rcases hfs : pySplit (pyStrip line) '|' with _ | ⟨a, _ | ⟨b, _ | ⟨c, _ |
      ⟨d, _ | ⟨e, _ | ⟨f, _ | ⟨g, rest⟩⟩⟩⟩⟩⟩⟩
    all_goals rw [hfs] at h
    all_goals try exact Option.noConfusion h
    have heq : parse_fields (a :: b :: c :: d :: e :: f :: g :: rest) =
        if b = "*" ∨ b.length ≠ 2 then none
        else if c ≠ "ipv4" ∧ c ≠ "ipv6" then none
        else some ⟨a, pyUpper b, c, d, e, normalizeDate f, g⟩ := rfl
    rw [heq] at h
    by_cases hb : b = "*" ∨ b.length ≠ 2
    · rw [if_pos hb] at h
      exact Option.noConfusion h
    · rw [if_neg hb] at h
      by_cases hc : c ≠ "ipv4" ∧ c ≠ "ipv6"
      · rw [if_pos hc] at h
        exact Option.noConfusion h
      · rw [if_neg hc] at h
        have hr := Option.some.inj h
        rw [← hr]
        rfl

/-- C6 (amended): a malformed date never causes rejection; an accepted
record's date is either the raw sixth field unchanged or cleared to empty,
and whenever the accepted date has 8 characters it parses as a calendar
date.  (A nonempty date whose length is not 8 is kept verbatim without
validation, so an accepted date may be a malformed non-8-character
string.) -/
theorem c6_date_validation (line : String) (r : DelegationRecord)
    (h : parse_rir_line line = some r) :
    (r.date = (pySplit (pyStrip line) '|').getD 5 "" ∨ r.date = "") ∧
    (r.date.length = 8 → validDate8 r.date = true) := by
  rw [parse_date_eq line r h]
  exact normalizeDate_spec _

/-- Witness for C6 (amended): an accepted record with a well-formed
8-character date keeps it, and it validates. -/
theorem c6_date_validation_witness :
    ((("20200101" : String) = (pySplit (pyStrip
        "arin|US|ipv4|1.2.3.0|256|20200101|allocated") '|').getD 5 "" ∨
      ("20200101" : String) = "") ∧
     (("20200101" : String).length = 8 → validDate8 "20200101" = true)) :=
  c6_date_validation "arin|US|ipv4|1.2.3.0|256|20200101|allocated"
    ⟨"arin", "US", "ipv4", "1.2.3.0", "256", "20200101", "allocated"⟩ (by decide)

/-- Counterexample to C6 as stated: a 7-character date field is neither
cleared nor validated nor rejected — the record is accepted with the
malformed date kept, which is neither absent nor a valid 8-digit calendar
date. -/
theorem c6_counterexample :
    parse_rir_line "arin|US|ipv4|1.2.3.0|256|2020011|allocated" =
      some ⟨"arin", "US", "ipv4", "1.2.3.0", "256", "2020011", "allocated"⟩ ∧
    ¬ (("2020011" : String) = "" ∨
       (("2020011" : String).length = 8 ∧ validDate8 "2020011" = true)) := by
  exact ⟨by decide, by decide⟩
